import Mathlib

/-!
Shallow embedding of the remote synchronization engine of Hominum-Updater
(`src/Updater/source/mc/minecraft.py`, class `MCManager`), together with
models of the consumed `source.mc.remote` interface (that module is not part
of the sources at hand; its operations are modelled from the specification,
each such definition marked `Modelled from the spec:`).

Conventions of the embedding:
* Filesystem and network effects are recorded as an explicit `Event` trace.
* The local directory state is a list of filenames; the local file store for
  the single-file path is an association list from path to content.
* Python exceptions are `Except PyError`; a generator run is summarised by
  the events performed, the progress tuples yielded, and the terminal result.
* Python name resolution matters in `_create_dir_path`: the body tests the
  name `remote`, which resolves to the module imported at line 11
  (`from source.mc import remote`), not to the string parameter `remote_dir`.
  To embed those tests faithfully the scrutinee is kept as a Python value
  (`PyVal.module`) distinct from every string.
-/

/-- A Python runtime value, as far as the equality/membership tests of
`MCManager._create_dir_path` need it: the imported module object `remote`
versus a string.  A module compares unequal to every string. -/
inductive PyVal where
  | module (name : String)
  | str (s : String)
deriving DecidableEq, Repr

/-- The name `remote` inside the methods of `MCManager` resolves to the
module imported by `from source.mc import remote` (minecraft.py line 11). -/
def MODULE_REMOTE : PyVal := PyVal.module "source.mc.remote"

/-- A Python exception, as far as `MCManager` can raise one. -/
inductive PyError where
  | valueError (msg : String)
  | osError (path : String)
  | typeError
deriving DecidableEq, Repr

/-- One observable effect: a filesystem mutation or a network request. -/
inductive Event where
  | mkdir (path : String)
  | remove (path : String)
  | write (path : String)
  | netGet (url : String)
  | downloadAttempt (url : String) (dest : String)
deriving DecidableEq, Repr

/-- The parsed remote configuration's `"urls"` mapping: category / file name
to an optional URL (a JSON value may be `null`, i.e. `none`). -/
structure RemoteConfig where
  urls : List (String × Option String)
deriving DecidableEq, Repr

/-- Python `key in urls` on the `"urls"` dict: the dict's keys are strings,
and the probe is an arbitrary Python value. -/
def urlsContains (urls : List (String × Option String)) (k : PyVal) : Bool :=
  urls.any (fun p => PyVal.str p.1 == k)

/-- Python `urls[key]` on the `"urls"` dict: `none` models a `KeyError`,
`some v` the stored value (itself possibly `None`). -/
def urlsIndex (urls : List (String × Option String)) (k : String) :
    Option (Option String) :=
  (urls.find? (fun p => p.1 == k)).map Prod.snd

/-- Embeds `MCManager._create_dir_path` (minecraft.py lines 53-87).
Returns the events performed and either the raised error or the pair
`(local_dir, remote_dir_url)`.  The membership test of line 70 and the
comparisons of lines 72-81 are on the name `remote`, i.e. on
`MODULE_REMOTE`, exactly as in the source; only line 84 indexes with the
parameter `remote_dir`. -/
def create_dir_path (remote_config : Option RemoteConfig) (work_dir : String)
    (remote_dir : String) : List Event × Except PyError (String × Option String) :=
  match remote_config with
  | none => ([], .error (.valueError "Remote config is not set"))
  | some cfg =>
    if ¬ urlsContains cfg.urls MODULE_REMOTE then
      ([], .error (.valueError "Invalid remote directory"))
    else
      match (if MODULE_REMOTE == PyVal.str "config" then some (work_dir ++ "/config")
             else if MODULE_REMOTE == PyVal.str "mods" then some (work_dir ++ "/mods")
             else if MODULE_REMOTE == PyVal.str "resourcepacks" then
               some (work_dir ++ "/resourcepacks")
             else if MODULE_REMOTE == PyVal.str "shaderpacks" then
               some (work_dir ++ "/shaderpacks")
             else none) with
      | none => ([], .error (.valueError "Unknown valid remote directory"))
      | some local_dir =>
        match urlsIndex cfg.urls remote_dir with
        | none => ([Event.mkdir local_dir], .error (.valueError "KeyError"))
        | some remote_dir_url => ([Event.mkdir local_dir], .ok (local_dir, remote_dir_url))

/-- Embeds `MCManager._create_file_path` (minecraft.py lines 89-117).
Unlike `_create_dir_path`, every test here really is on the parameter
`remote_file`.  A `none` configuration raises `TypeError` (line 104
subscripts `self.remote_config` with no guard). -/
def create_file_path (remote_config : Option RemoteConfig) (work_dir : String)
    (remote_file : String) : List Event × Except PyError (String × Option String) :=
  match remote_config with
  | none => ([], .error .typeError)
  | some cfg =>
    if ¬ urlsContains cfg.urls (PyVal.str remote_file) then
      ([], .error (.valueError "Invalid remote file"))
    else
      match (if remote_file == "options" then some (work_dir ++ "/options.txt")
             else if remote_file == "servers" then some (work_dir ++ "/servers.dat")
             else none) with
      | none => ([], .error (.valueError "Unknown valid remote file"))
      | some local_filepath =>
        match urlsIndex cfg.urls remote_file with
        | none => ([Event.mkdir work_dir], .error (.valueError "KeyError"))
        | some remote_file_url =>
          ([Event.mkdir work_dir], .ok (local_filepath, remote_file_url))

/-- A progress tuple yielded by `sync_dir`:
`(count, total, filename, error_occured)`. -/
structure Progress where
  count : Nat
  total : Nat
  filename : String
  error_occured : Bool
deriving DecidableEq, Repr

/-- The summary of one generator run: the effects performed, the progress
tuples yielded, and whether the body returned or raised. -/
structure SyncOutcome where
  events : List Event
  yields : List Progress
  result : Except PyError Unit
deriving Repr

/-- The consumed `source.mc.remote` interface and the fallibility of the
filesystem, as one deterministic oracle.  `listing` is
`remote.get_filenames`, `downloads` is `remote.get_file_downloads`
(pairs `(download_url, filename)`), `removeFails` says which paths
`os.remove` fails on, `downloadFails` which download URLs fail. -/
structure DirEnv where
  listing : String → Option (List String)
  downloads : String → Option (List (String × String))
  removeFails : String → Bool
  downloadFails : String → Bool

/-- Embeds the deletion loop of `MCManager.sync_dir` (minecraft.py lines
168-173): iterate over the directory listing in order; a file absent from
`server_mods` is removed with `os.remove`, which is not guarded by any
`try`/`except`, so a failure raises `OSError` out of the loop at once.
Returns the remove events, the files still present afterwards, and the
result. -/
def remove_invalid (removeFails : String → Bool) (local_dir : String)
    (server_mods : List String) :
    List String → List Event × List String × Except PyError Unit
  | [] => ([], [], .ok ())
  | f :: fs =>
    if f ∈ server_mods then
      let t := remove_invalid removeFails local_dir server_mods fs
      (t.1, f :: t.2.1, t.2.2)
    else
      let path := local_dir ++ "/" ++ f
      if removeFails path then
        ([], f :: fs, .error (.osError path))
      else
        let t := remove_invalid removeFails local_dir server_mods fs
        (Event.remove path :: t.1, t.2.1, t.2.2)

/-- Modelled from the spec: the per-job loop of `remote.download_files`
(the `source.mc.remote` module is not among the sources).  Each job is a
`(download_url, filename)` pair; every job is attempted once, a failure is
reported through the `error_occured` flag of that job's progress tuple and
does not abort the remaining jobs (section 4.2); a failed download leaves
nothing at the destination (section 4.2's minimum write discipline); `count`
increases by one per processed job up to `total`. -/
def run_downloads (downloadFails : String → Bool) (target_dir : String)
    (total : Nat) : Nat → List (String × String) → List Event × List Progress
  | _, [] => ([], [])
  | done, (url, name) :: rest =>
    let dest := target_dir ++ "/" ++ name
    let failed := downloadFails url
    let t := run_downloads downloadFails target_dir total (done + 1) rest
    (Event.downloadAttempt url dest :: ((if failed then [] else [Event.write dest]) ++ t.1),
     ⟨done + 1, total, name, failed⟩ :: t.2)

/-- Modelled from the spec: `remote.download_files(urls_to_download,
local_dir)` (the `source.mc.remote` module is not among the sources).  Per
sections 2, 4.1 and 8, the fetch set is `remote − local`: a job whose
filename is already present in the target directory is skipped, and the
progress sequence has exactly one tuple per fetched file. -/
def download_files (downloadFails : String → Bool)
    (jobs : List (String × String)) (target_dir : String)
    (existing : List String) : List Event × List Progress :=
  let fetch := jobs.filter (fun j => ¬ existing.contains j.2)
  run_downloads downloadFails target_dir fetch.length 0 fetch

/-- Embeds the body of `MCManager.sync_dir` after `_create_dir_path` has
returned (minecraft.py lines 162-182): the `None`-URL early return, the
`get_filenames` call whose `None` raises `ValueError`, the deletion loop,
the `get_file_downloads` call whose `None` raises `ValueError`, and the
download loop whose tuples are re-yielded. -/
def sync_dir_from (env : DirEnv) (local_files : List String)
    (local_dir : String) (remote_dir_url : Option String) : SyncOutcome :=
  match remote_dir_url with
  | none => ⟨[], [], .ok ()⟩
  | some url =>
    match env.listing url with
    | none => ⟨[Event.netGet url], [], .error (.valueError "Server filenames are not set")⟩
    | some server_mods =>
      let t := remove_invalid env.removeFails local_dir server_mods local_files
      match t.2.2 with
      | .error e => ⟨Event.netGet url :: t.1, [], .error e⟩
      | .ok () =>
        match env.downloads url with
        | none =>
          ⟨Event.netGet url :: (t.1 ++ [Event.netGet url]), [],
           .error (.valueError "URLs to download are not set")⟩
        | some jobs =>
          let d := download_files env.downloadFails jobs local_dir t.2.1
          ⟨Event.netGet url :: (t.1 ++ Event.netGet url :: d.1), d.2, .ok ()⟩

/-- Embeds `MCManager.sync_dir` (minecraft.py lines 147-182): resolve the
category through `_create_dir_path`, then run the body.  `local_files` is
the state `os.listdir` would observe. -/
def sync_dir (env : DirEnv) (remote_config : Option RemoteConfig)
    (work_dir : String) (local_files : List String) (remote_dir : String) :
    SyncOutcome :=
  let c := create_dir_path remote_config work_dir remote_dir
  match c.2 with
  | .error e => ⟨c.1, [], .error e⟩
  | .ok (local_dir, remote_dir_url) =>
    let o := sync_dir_from env local_files local_dir remote_dir_url
    ⟨c.1 ++ o.events, o.yields, o.result⟩

/-- The consumed `source.mc.remote` interface for the single-file path:
`get_file_download` is `remote.get_file_download` (returning a
`(download_url, filename)` record or `None`), `downloadOk` says whether
`remote.download` succeeds on a given download URL, and `fetched` is the
content a successful download writes. -/
structure FileEnv where
  get_file_download : String → Option (String × String)
  downloadOk : String → Bool
  fetched : String → String

/-- Lookup in the local file store (path to content association list). -/
def fsGet (fs : List (String × String)) (p : String) : Option String :=
  (fs.find? (fun q => q.1 == p)).map Prod.snd

/-- Python `os.path.exists` on the local file store. -/
def fsExists (fs : List (String × String)) (p : String) : Bool :=
  fs.any (fun q => q.1 == p)

/-- Python `os.remove` on the local file store. -/
def fsRemove (fs : List (String × String)) (p : String) : List (String × String) :=
  fs.filter (fun q => ¬ q.1 == p)

/-- The summary of one `sync_file` run: the effects performed, the local
file store afterwards, and whether the call returned or raised. -/
structure FileOutcome where
  events : List Event
  fs : List (String × String)
  result : Except PyError Unit
deriving Repr

/-- Embeds `MCManager.sync_file` (minecraft.py lines 184-209): resolve the
file through `_create_file_path`; a `None` URL is logged and returned from
(a silent no-op); a `None` `get_file_download` record raises `ValueError`;
an existing local file is removed; then `remote.download` fetches the
record to the local path.  The download primitive is modelled from the
spec: it returns a success flag that `sync_file` ignores, a success writes
the fetched content at the destination, and a failure leaves nothing there
(section 4.2's minimum write discipline). -/
def sync_file (env : FileEnv) (remote_config : Option RemoteConfig)
    (work_dir : String) (fs : List (String × String)) (remote_file : String) :
    FileOutcome :=
  let c := create_file_path remote_config work_dir remote_file
  let evs := c.1
  match c.2 with
  | .error e => ⟨evs, fs, .error e⟩
  | .ok (_, none) => ⟨evs, fs, .ok ()⟩
  | .ok (local_filepath, some url) =>
    match env.get_file_download url with
    | none =>
      ⟨evs ++ [Event.netGet url], fs, .error (.valueError "Server file is not set")⟩
    | some server_file =>
      let evs0 := evs ++ [Event.netGet url]
      let evs1 :=
        if fsExists fs local_filepath then evs0 ++ [Event.remove local_filepath]
        else evs0
      let fs1 :=
        if fsExists fs local_filepath then fsRemove fs local_filepath else fs
      let evs2 := evs1 ++ [Event.downloadAttempt server_file.1 local_filepath]
      if env.downloadOk server_file.1 then
        ⟨evs2 ++ [Event.write local_filepath],
         (local_filepath, env.fetched server_file.1) :: fs1, .ok ()⟩
      else
        ⟨evs2, fs1, .ok ()⟩

/-! ## General lemmas about the embedding -/

/-- The module object `remote` is not a key of the `"urls"` dict: its keys
are strings and a module compares unequal to every string. -/
theorem urlsContains_module (urls : List (String × Option String)) :
    urlsContains urls MODULE_REMOTE = false := by
  simp [urlsContains, MODULE_REMOTE]

/-- With any configuration present, `_create_dir_path` raises
`ValueError("Invalid remote directory: ...")` for every argument, because
line 70 tests the imported module `remote` instead of the parameter
`remote_dir` for membership in the urls mapping. -/
theorem create_dir_path_slip (cfg : RemoteConfig) (work_dir remote_dir : String) :
    create_dir_path (some cfg) work_dir remote_dir =
      ([], .error (.valueError "Invalid remote directory")) := by
  simp [create_dir_path, urlsContains_module]

/-- `_create_dir_path` performs no effect: it raises before `mkdir`. -/
theorem create_dir_path_events_nil (c : Option RemoteConfig) (wd rd : String) :
    (create_dir_path c wd rd).1 = [] := by
  cases c with
  | none => rfl
  | some cfg => rw [create_dir_path_slip]

/-- A successful dict index implies dict membership of the string key. -/
theorem urlsContains_of_index (urls : List (String × Option String))
    (k : String) (v : Option String) (h : urlsIndex urls k = some v) :
    urlsContains urls (PyVal.str k) = true := by
  unfold urlsIndex at h
  rcases hf : urls.find? (fun p => p.1 == k) with _ | p
  · rw [hf] at h; simp at h
  · have hp := List.find?_some hf
    have hmem : p ∈ urls := List.mem_of_find?_eq_some hf
    simp only [urlsContains, List.any_eq_true]
    refine ⟨p, hmem, ?_⟩
    simpa using hp

/-- The local path of a singleton file (minecraft.py lines 106-109). -/
def local_file_path (work_dir name : String) : String :=
  if name == "options" then work_dir ++ "/options.txt"
  else work_dir ++ "/servers.dat"

/-- For a known singleton name whose key is present, `_create_file_path`
performs the `makedirs` and returns the local path and stored URL. -/
theorem create_file_path_resolves (cfg : RemoteConfig) (work_dir name : String)
    (v : Option String) (hname : name = "options" ∨ name = "servers")
    (hurl : urlsIndex cfg.urls name = some v) :
    create_file_path (some cfg) work_dir name =
      ([Event.mkdir work_dir], .ok (local_file_path work_dir name, v)) := by
  have hc := urlsContains_of_index cfg.urls name v hurl
  rcases hname with h | h <;> subst h <;>
    simp [create_file_path, local_file_path, hc, hurl]

/-- Lookup at the head of the store. -/
theorem fsGet_cons_self (fs : List (String × String)) (p c : String) :
    fsGet ((p, c) :: fs) p = some c := by
  simp [fsGet, List.find?_cons]

/-- After `fsRemove`, nothing is stored at the removed path. -/
theorem fsGet_fsRemove (fs : List (String × String)) (p : String) :
    fsGet (fsRemove fs p) p = none := by
  have h : (fsRemove fs p).find? (fun q => q.1 == p) = none := by
    rw [List.find?_eq_none]
    intro q hq
    simpa using (List.mem_filter.mp hq).2
  simp [fsGet, h]

/-- Classifies the events that transfer remote content to disk. -/
def isDownloadEvent : Event → Bool
  | Event.downloadAttempt _ _ => true
  | Event.write _ => true
  | _ => false

/-- Classifies the deletion events. -/
def isRemoveEvent : Event → Bool
  | Event.remove _ => true
  | _ => false

/-- The deletion loop only ever removes files: none of its events is a
download. -/
theorem remove_invalid_not_download (rf : String → Bool) (dir : String)
    (mods : List String) :
    ∀ (L : List String), ∀ e ∈ (remove_invalid rf dir mods L).1,
      isDownloadEvent e = false := by
  intro L
  induction L with
  | nil => intro e he; simp [remove_invalid] at he
  | cons f fs ih =>
    intro e he
    simp only [remove_invalid] at he
    by_cases hm : f ∈ mods
    · rw [if_pos hm] at he
      exact ih e he
    · rw [if_neg hm] at he
      cases hrf : rf (dir ++ "/" ++ f) with
      | true => rw [if_pos (by simp [hrf])] at he; simp at he
      | false =>
        rw [if_neg (by simp [hrf])] at he
        rcases List.mem_cons.mp he with h | h
        · subst h; rfl
        · exact ih e h

/-- The download loop only ever fetches and writes: none of its events is a
removal. -/
theorem run_downloads_not_remove (df : String → Bool) (dir : String)
    (total : Nat) :
    ∀ (jobs : List (String × String)) (done : Nat),
      ∀ e ∈ (run_downloads df dir total done jobs).1, isRemoveEvent e = false := by
  intro jobs
  induction jobs with
  | nil => intro done e he; simp [run_downloads] at he
  | cons j rest ih =>
    intro done e he
    obtain ⟨u, nm⟩ := j
    simp only [run_downloads] at he
    rcases List.mem_cons.mp he with h | h
    · subst h; rfl
    · rcases List.mem_append.mp h with h | h
      · cases hdf : df u with
        | true => rw [if_pos (by simp [hdf])] at h; simp at h
        | false =>
          rw [if_neg (by simp [hdf])] at h
          rcases List.mem_singleton.mp h with rfl
          rfl
      · exact ih (done + 1) e h

/-- The event trace of the sync body splits into a prefix free of download
events followed by a suffix free of removal events. -/
theorem sync_dir_from_split (env : DirEnv) (L : List String) (dir : String)
    (url? : Option String) :
    ∃ l₁ l₂, (sync_dir_from env L dir url?).events = l₁ ++ l₂ ∧
      (∀ e ∈ l₁, isDownloadEvent e = false) ∧
      (∀ e ∈ l₂, isRemoveEvent e = false) := by
  cases url? with
  | none => exact ⟨[], [], rfl, by simp, by simp⟩
  | some url =>
    cases hls : env.listing url with
    | none =>
      refine ⟨[Event.netGet url], [], by simp [sync_dir_from, hls], ?_, by simp⟩
      intro e he
      rcases List.mem_singleton.mp he with rfl
      rfl
    | some mods =>
      have hrm := remove_invalid_not_download env.removeFails dir mods L
      cases hr : (remove_invalid env.removeFails dir mods L).2.2 with
      | error err =>
        refine ⟨Event.netGet url :: (remove_invalid env.removeFails dir mods L).1, [],
          by simp [sync_dir_from, hls, hr], ?_, by simp⟩
        intro e he
        rcases List.mem_cons.mp he with rfl | h
        · rfl
        · exact hrm e h
      | ok u =>
        cases u
        cases hdl : env.downloads url with
        | none =>
          refine ⟨Event.netGet url ::
            ((remove_invalid env.removeFails dir mods L).1 ++ [Event.netGet url]), [],
            by simp [sync_dir_from, hls, hr, hdl], ?_, by simp⟩
          intro e he
          rcases List.mem_cons.mp he with rfl | h
          · rfl
          · rcases List.mem_append.mp h with h | h
            · exact hrm e h
            · rcases List.mem_singleton.mp h with rfl
              rfl
        | some jobs =>
          refine ⟨Event.netGet url :: (remove_invalid env.removeFails dir mods L).1,
            Event.netGet url ::
              (download_files env.downloadFails jobs dir
                (remove_invalid env.removeFails dir mods L).2.1).1,
            by simp [sync_dir_from, hls, hr, hdl], ?_, ?_⟩
          · intro e he
            rcases List.mem_cons.mp he with rfl | h
            · rfl
            · exact hrm e h
          · intro e he
            rcases List.mem_cons.mp he with rfl | h
            · rfl
            · exact run_downloads_not_remove env.downloadFails dir _ _ 0 e h

/-! ## Concrete fixtures -/

/-- A manifest with URLs for all four directory categories. -/
def allUrlsCfg : RemoteConfig :=
  ⟨[("config", some "http://h/config"), ("mods", some "http://h/mods"),
    ("resourcepacks", some "http://h/resourcepacks"),
    ("shaderpacks", some "http://h/shaderpacks")]⟩

/-- A manifest with a URL for `mods` only. -/
def modsCfg : RemoteConfig := ⟨[("mods", some "http://h/mods")]⟩

/-- A manifest where the `mods` key is present but its URL is `None`. -/
def noUrlCfg : RemoteConfig := ⟨[("mods", none)]⟩

/-- A manifest where the `options` key is present but its URL is `None`. -/
def noUrlOptCfg : RemoteConfig := ⟨[("options", none)]⟩

/-- A remote where everything works and the listing is `["b.jar"]`. -/
def envHappy : DirEnv :=
  ⟨fun _ => some ["b.jar"], fun _ => some [("http://h/mods/b.jar", "b.jar")],
   fun _ => false, fun _ => false⟩

/-- A remote whose listing call returns `None`. -/
def envNoListing : DirEnv :=
  ⟨fun _ => none, fun _ => none, fun _ => false, fun _ => false⟩

/-- A remote with an empty listing, over a filesystem on which removing
`"wd/mods/a.jar"` fails. -/
def envRemoveFail : DirEnv :=
  ⟨fun _ => some [], fun _ => some [], fun p => p == "wd/mods/a.jar",
   fun _ => false⟩

/-- A single-file remote where everything works. -/
def fileEnvHappy : FileEnv :=
  ⟨fun _ => some ("http://h/dl/options", "options.txt"), fun _ => true,
   fun _ => "content"⟩

/-! ## Claim theorems -/

/-- C1: the claim says every category present in the manifest's urls mapping
resolves without raising.  The code raises
`ValueError("Invalid remote directory: ...")` for all four categories even
though every URL is present, because lines 70-81 test the imported module
`remote` instead of the parameter `remote_dir`. -/
theorem create_dir_path_raises_for_every_present_category :
    (create_dir_path (some allUrlsCfg) "wd" "config" =
      ([], .error (.valueError "Invalid remote directory"))) ∧
    (create_dir_path (some allUrlsCfg) "wd" "mods" =
      ([], .error (.valueError "Invalid remote directory"))) ∧
    (create_dir_path (some allUrlsCfg) "wd" "resourcepacks" =
      ([], .error (.valueError "Invalid remote directory"))) ∧
    (create_dir_path (some allUrlsCfg) "wd" "shaderpacks" =
      ([], .error (.valueError "Invalid remote directory"))) :=
  ⟨rfl, rfl, rfl, rfl⟩

/-- C2: the claim says `sync_dir` deletes exactly the local files whose
names are missing from the remote listing.  With local state `["a.jar"]`
and remote listing `["b.jar"]` the call performs no deletion at all: it
raises `ValueError` inside `_create_dir_path` before the deletion loop. -/
theorem sync_dir_deletes_nothing :
    (sync_dir envHappy (some modsCfg) "wd" ["a.jar"] "mods").events = [] ∧
    (sync_dir envHappy (some modsCfg) "wd" ["a.jar"] "mods").yields = [] ∧
    (sync_dir envHappy (some modsCfg) "wd" ["a.jar"] "mods").result =
      .error (.valueError "Invalid remote directory") :=
  ⟨rfl, rfl, rfl⟩

/-- C3: the claim says the files submitted for download are exactly
`remote − local`.  With empty local state and remote listing `["b.jar"]`
nothing is submitted: the call raises `ValueError` inside
`_create_dir_path` before the download phase. -/
theorem sync_dir_downloads_nothing :
    (sync_dir envHappy (some modsCfg) "wd" [] "mods").events = [] ∧
    (sync_dir envHappy (some modsCfg) "wd" [] "mods").yields = [] ∧
    (sync_dir envHappy (some modsCfg) "wd" [] "mods").result =
      .error (.valueError "Invalid remote directory") :=
  ⟨rfl, rfl, rfl⟩

/-- C4 counterexample: the claim says that with the category URL present
and the remote listing returning `None`, `sync_dir` skips without raising.
At this concrete input the call raises a `ValueError`. -/
theorem sync_dir_none_listing_cex :
    (sync_dir envNoListing (some modsCfg) "wd" [] "mods").result =
      .error (.valueError "Invalid remote directory") := rfl

/-- C4 amended: with the category URL present and the remote listing
returning `None`, `sync_dir` raises a `ValueError` rather than skipping
(the current code already raises in `_create_dir_path`; the explicit
`None` check of lines 166-167 also raises rather than skips). -/
theorem sync_dir_none_listing_raises (env : DirEnv) (cfg : RemoteConfig)
    (work_dir : String) (L : List String) (remote_dir url : String)
    (hurl : urlsIndex cfg.urls remote_dir = some (some url))
    (hlist : env.listing url = none) :
    sync_dir env (some cfg) work_dir L remote_dir =
      ⟨[], [], .error (.valueError "Invalid remote directory")⟩ := by
  simp [sync_dir, create_dir_path_slip]

/-- Witness for the amended C4 at a concrete input. -/
theorem sync_dir_none_listing_raises_witness :
    sync_dir envNoListing (some modsCfg) "wd" ["a.jar"] "mods" =
      ⟨[], [], .error (.valueError "Invalid remote directory")⟩ :=
  sync_dir_none_listing_raises envNoListing modsCfg "wd" ["a.jar"] "mods"
    "http://h/mods" rfl rfl

/-- C5 counterexample: the claim says a deletion failure is skipped and the
remaining deletions and downloads still take place.  At this concrete input
(the loop of lines 168-173 run on local `["a.jar", "z.jar"]`, empty remote
listing, `os.remove` failing on `a.jar`) the `OSError` propagates:
`z.jar` is never removed and no download is performed. -/
theorem sync_dir_deletion_failure_cex :
    (sync_dir_from envRemoveFail ["a.jar", "z.jar"] "wd/mods"
      (some "http://h/mods")).result = .error (.osError "wd/mods/a.jar") ∧
    Event.remove "wd/mods/z.jar" ∉
      (sync_dir_from envRemoveFail ["a.jar", "z.jar"] "wd/mods"
        (some "http://h/mods")).events ∧
    (sync_dir_from envRemoveFail ["a.jar", "z.jar"] "wd/mods"
      (some "http://h/mods")).yields = [] :=
  ⟨rfl, by decide, rfl⟩

/-- C5 amended: a failure while deleting a `to_delete` file aborts the
sync: `os.remove` is not guarded, the exception propagates, and neither the
remaining deletions nor any download takes place. -/
theorem sync_dir_from_deletion_failure_aborts (env : DirEnv) (L : List String)
    (dir url : String) (mods : List String) (f : String)
    (hlist : env.listing url = some mods) (hf : f ∉ mods)
    (hfail : env.removeFails (dir ++ "/" ++ f) = true) :
    sync_dir_from env (f :: L) dir (some url) =
      ⟨[Event.netGet url], [], .error (.osError (dir ++ "/" ++ f))⟩ := by
  simp [sync_dir_from, hlist, remove_invalid, hf, hfail]

/-- Witness for the amended C5 at a concrete input. -/
theorem sync_dir_from_deletion_failure_aborts_witness :
    sync_dir_from envRemoveFail ["a.jar", "b.jar"] "wd/mods"
      (some "http://h/mods") =
      ⟨[Event.netGet "http://h/mods"], [], .error (.osError "wd/mods/a.jar")⟩ :=
  sync_dir_from_deletion_failure_aborts envRemoveFail ["b.jar"] "wd/mods"
    "http://h/mods" [] "a.jar" rfl (by simp) (by decide)

/-- C6 counterexample: the claim says that with the category URL absent the
call yields an empty progress sequence (a normal, empty run).  At this
concrete input (`mods` mapped to `None`) the call instead raises a
`ValueError`. -/
theorem sync_dir_absent_url_cex :
    (sync_dir envHappy (some noUrlCfg) "wd" ["x.jar"] "mods").result =
      .error (.valueError "Invalid remote directory") := rfl

/-- C6 amended: with the category URL absent, `sync_dir` raises a
`ValueError` and performs zero filesystem mutations and zero yields (were
the module/parameter slip fixed, the run would return normally but would
still create the local directory at line 83 before the URL check). -/
theorem sync_dir_absent_url_raises_no_mutation (env : DirEnv)
    (cfg : RemoteConfig) (work_dir : String) (L : List String)
    (remote_dir : String) (hurl : urlsIndex cfg.urls remote_dir = some none) :
    sync_dir env (some cfg) work_dir L remote_dir =
      ⟨[], [], .error (.valueError "Invalid remote directory")⟩ := by
  simp [sync_dir, create_dir_path_slip]

/-- Witness for the amended C6 at a concrete input. -/
theorem sync_dir_absent_url_raises_no_mutation_witness :
    sync_dir envHappy (some noUrlCfg) "wd" ["x.jar"] "mods" =
      ⟨[], [], .error (.valueError "Invalid remote directory")⟩ :=
  sync_dir_absent_url_raises_no_mutation envHappy noUrlCfg "wd" ["x.jar"]
    "mods" rfl

/-- C7 counterexample: the claim says a requested singleton file whose URL
the manifest lacks surfaces a configuration error and does not silently
no-op.  At this concrete input (`options` mapped to `None`) `sync_file`
returns normally, leaving only the `makedirs` of `_create_file_path`. -/
theorem sync_file_none_url_cex :
    (sync_file fileEnvHappy (some noUrlOptCfg) "wd"
      [("wd/options.txt", "old")] "options").result = .ok () ∧
    (sync_file fileEnvHappy (some noUrlOptCfg) "wd"
      [("wd/options.txt", "old")] "options").events = [Event.mkdir "wd"] :=
  ⟨rfl, rfl⟩

/-- C7 amended: a singleton name missing from the urls mapping raises
`ValueError` immediately, but a name present with a `None` URL is logged
and silently returns (lines 196-198), leaving the local store unchanged. -/
theorem sync_file_url_error_or_noop (env : FileEnv) (cfg : RemoteConfig)
    (work_dir : String) (fs : List (String × String)) (name : String) :
    (urlsContains cfg.urls (PyVal.str name) = false →
      sync_file env (some cfg) work_dir fs name =
        ⟨[], fs, .error (.valueError "Invalid remote file")⟩) ∧
    ((name = "options" ∨ name = "servers") →
      urlsIndex cfg.urls name = some none →
      sync_file env (some cfg) work_dir fs name =
        ⟨[Event.mkdir work_dir], fs, .ok ()⟩) := by
  constructor
  · intro h
    simp [sync_file, create_file_path, h]
  · intro hname hurl
    simp [sync_file, create_file_path_resolves cfg work_dir name none hname hurl]

/-- Witness for the amended C7 at concrete inputs, one per branch. -/
theorem sync_file_url_error_or_noop_witness :
    (sync_file fileEnvHappy (some ⟨[]⟩) "wd" [] "options" =
      ⟨[], [], .error (.valueError "Invalid remote file")⟩) ∧
    (sync_file fileEnvHappy (some noUrlOptCfg) "wd" [] "options" =
      ⟨[Event.mkdir "wd"], [], .ok ()⟩) :=
  ⟨(sync_file_url_error_or_noop fileEnvHappy ⟨[]⟩ "wd" [] "options").1 rfl,
   (sync_file_url_error_or_noop fileEnvHappy noUrlOptCfg "wd" [] "options").2
     (Or.inl rfl) rfl⟩

/-- A manifest with a URL for `options`. -/
def optCfg : RemoteConfig := ⟨[("options", some "http://h/options")]⟩

/-- A single-file remote whose download primitive fails. -/
def fileEnvFail : FileEnv :=
  ⟨fun _ => some ("http://h/dl/options", "options.txt"), fun _ => false,
   fun _ => "content"⟩

/-- C8: for a singleton file with an available remote record, `sync_file`
attempts the download whatever the prior local store holds, and a
successful run leaves the fetched remote content at the local path: there
is no diffing and no delete-list, the file is always re-fetched and
overwritten. -/
theorem sync_file_always_refetches (env : FileEnv) (cfg : RemoteConfig)
    (work_dir : String) (fs : List (String × String)) (name url : String)
    (server_file : String × String)
    (hname : name = "options" ∨ name = "servers")
    (hurl : urlsIndex cfg.urls name = some (some url))
    (hrec : env.get_file_download url = some server_file) :
    Event.downloadAttempt server_file.1 (local_file_path work_dir name) ∈
      (sync_file env (some cfg) work_dir fs name).events ∧
    (env.downloadOk server_file.1 = true →
      fsGet (sync_file env (some cfg) work_dir fs name).fs
        (local_file_path work_dir name) = some (env.fetched server_file.1)) := by
  have hr := create_file_path_resolves cfg work_dir name (some url) hname hurl
  constructor
  · by_cases hex : fsExists fs (local_file_path work_dir name) = true <;>
      by_cases hok : env.downloadOk server_file.1 = true <;>
      simp [sync_file, hr, hrec, hex, hok]
  · intro hok
    by_cases hex : fsExists fs (local_file_path work_dir name) = true <;>
      simp [sync_file, hr, hrec, hex, hok, fsGet_cons_self]

/-- Witness for C8: the prior local copy already equals the remote content,
and the run still re-fetches and overwrites it. -/
theorem sync_file_always_refetches_witness :
    Event.downloadAttempt "http://h/dl/options" (local_file_path "wd" "options") ∈
      (sync_file fileEnvHappy (some optCfg) "wd"
        [("wd/options.txt", "content")] "options").events ∧
    fsGet (sync_file fileEnvHappy (some optCfg) "wd"
        [("wd/options.txt", "content")] "options").fs
      (local_file_path "wd" "options") = some "content" :=
  ⟨(sync_file_always_refetches fileEnvHappy optCfg "wd"
      [("wd/options.txt", "content")] "options" "http://h/options"
      ("http://h/dl/options", "options.txt") (Or.inl rfl) rfl rfl).1,
   (sync_file_always_refetches fileEnvHappy optCfg "wd"
      [("wd/options.txt", "content")] "options" "http://h/options"
      ("http://h/dl/options", "options.txt") (Or.inl rfl) rfl rfl).2 rfl⟩

/-- C9: in every `sync_dir` run the event trace splits into a prefix free
of download events (resolution and deletions) followed by a suffix free of
removal events (the download phase): every deletion completes before any
download begins. -/
theorem sync_dir_deletions_before_downloads (env : DirEnv)
    (remote_config : Option RemoteConfig) (work_dir : String)
    (local_files : List String) (remote_dir : String) :
    ∃ l₁ l₂,
      (sync_dir env remote_config work_dir local_files remote_dir).events =
        l₁ ++ l₂ ∧
      (∀ e ∈ l₁, isDownloadEvent e = false) ∧
      (∀ e ∈ l₂, isRemoveEvent e = false) := by
  have hev := create_dir_path_events_nil remote_config work_dir remote_dir
  cases hc : (create_dir_path remote_config work_dir remote_dir).2 with
  | error e =>
    refine ⟨[], [], ?_, by simp, by simp⟩
    simp [sync_dir, hc, hev]
  | ok pr =>
    obtain ⟨dir, url?⟩ := pr
    obtain ⟨l₁, l₂, he, h1, h2⟩ := sync_dir_from_split env local_files dir url?
    refine ⟨l₁, l₂, ?_, h1, h2⟩
    simp [sync_dir, hc, hev, he]

/-- C10: when `sync_file` reaches the transfer step with a pre-existing
local copy, the copy is removed before the download is attempted (the
trace is exactly makedirs, record fetch, remove, download attempt), and if
the download then fails nothing remains at the destination path. -/
theorem sync_file_removes_before_download (env : FileEnv) (cfg : RemoteConfig)
    (work_dir : String) (fs : List (String × String)) (name url : String)
    (server_file : String × String)
    (hname : name = "options" ∨ name = "servers")
    (hurl : urlsIndex cfg.urls name = some (some url))
    (hrec : env.get_file_download url = some server_file)
    (hex : fsExists fs (local_file_path work_dir name) = true)
    (hfail : env.downloadOk server_file.1 = false) :
    sync_file env (some cfg) work_dir fs name =
      ⟨[Event.mkdir work_dir, Event.netGet url,
        Event.remove (local_file_path work_dir name),
        Event.downloadAttempt server_file.1 (local_file_path work_dir name)],
       fsRemove fs (local_file_path work_dir name), .ok ()⟩ ∧
    fsGet (fsRemove fs (local_file_path work_dir name))
      (local_file_path work_dir name) = none := by
  have hr := create_file_path_resolves cfg work_dir name (some url) hname hurl
  refine ⟨?_, fsGet_fsRemove fs (local_file_path work_dir name)⟩
  simp [sync_file, hr, hrec, hex, hfail]

/-- Witness for C10 at a concrete input with a failing download. -/
theorem sync_file_removes_before_download_witness :
    sync_file fileEnvFail (some optCfg) "wd" [("wd/options.txt", "old")]
      "options" =
      ⟨[Event.mkdir "wd", Event.netGet "http://h/options",
        Event.remove (local_file_path "wd" "options"),
        Event.downloadAttempt "http://h/dl/options"
          (local_file_path "wd" "options")],
       fsRemove [("wd/options.txt", "old")] (local_file_path "wd" "options"),
       .ok ()⟩ ∧
    fsGet (fsRemove [("wd/options.txt", "old")] (local_file_path "wd" "options"))
      (local_file_path "wd" "options") = none :=
  sync_file_removes_before_download fileEnvFail optCfg "wd"
    [("wd/options.txt", "old")] "options" "http://h/options"
    ("http://h/dl/options", "options.txt") (Or.inl rfl) rfl rfl (by decide) rfl
